/-
Verification of the wsget command-execution core.

This file shallowly embeds the Go sources of the repository:
  - the command Factory (package command: Factory.Create over raw input lines),
  - the legacy command set and its Execute methods (package cmd, commands.go),
  - the macro repository merge (package macro: Repo.merge),
  - the Connection close lifecycle (package ws: Connection.Close),
and proves the spec's claims about them.

Go strings are modelled as Lean String; Go `strings.SplitN(s, " ", 2)` and
`strconv.Atoi` are embedded as executable functions on character lists; Go maps
are modelled as association lists (lookup = first match, iteration = list
order); fallible Go functions return Except; a Go runtime panic is a dedicated
result constructor.  Go errors are modelled by their message strings.
-/
import Mathlib

/-! ### Go string primitives -/

/-- Locates the first space in a character list: `none` when there is no space,
otherwise the characters before it and the characters after it.  This is the
core of Go `strings.SplitN(s, " ", 2)`. -/
def splitAtFirstSpace : List Char → Option (List Char × List Char)
  | [] => none
  | c :: rest =>
    if c = ' ' then some ([], rest)
    else match splitAtFirstSpace rest with
      | none => none
      | some (a, b) => some (c :: a, b)

/-- Embeds Go `strings.SplitN(s, " ", 2)` (the sources split with constant
`PartsNumber`; that constant's definition is outside src/, but the spec fixes
the behaviour: "Splits the line on the first whitespace into a command keyword
and a remainder").  A result `(cmd, none)` is Go's one-element slice
(`len(parts) == 1`), and `(cmd, some rest)` is the two-element slice. -/
def splitCmd (s : String) : String × Option String :=
  match splitAtFirstSpace s.data with
  | none => (s, none)
  | some (a, b) => (⟨a⟩, some ⟨b⟩)

theorem splitAtFirstSpace_length {cs a b : List Char}
    (h : splitAtFirstSpace cs = some (a, b)) : a.length + b.length + 1 = cs.length := by
  induction cs generalizing a b with
  | nil => simp [splitAtFirstSpace] at h
  | cons c rest ih =>
    simp only [splitAtFirstSpace] at h
    by_cases hc : c = ' '
    · simp [hc] at h
      obtain ⟨h1, h2⟩ := h
      subst h1; subst h2; simp
    · simp [hc] at h
      cases hr : splitAtFirstSpace rest with
      | none => simp [hr] at h
      | some p =>
        obtain ⟨x, y⟩ := p
        simp [hr] at h
        obtain ⟨h1, h2⟩ := h
        subst h1; subst h2
        have := ih hr
        simp only [List.length_cons]
        omega

theorem splitCmd_arg_length {s c a : String} (h : splitCmd s = (c, some a)) :
    a.data.length < s.data.length := by
  unfold splitCmd at h
  cases hs : splitAtFirstSpace s.data with
  | none => simp [hs] at h
  | some p =>
    obtain ⟨x, y⟩ := p
    simp only [hs, Prod.mk.injEq, Option.some.injEq] at h
    obtain ⟨h1, h2⟩ := h
    have := splitAtFirstSpace_length hs
    subst h2
    simp only [List.length]
    omega

theorem splitAtFirstSpace_of_nospace {l : List Char} (h : ∀ c ∈ l, c ≠ ' ') :
    splitAtFirstSpace l = none := by
  induction l with
  | nil => rfl
  | cons c rest ih =>
    have hc : c ≠ ' ' := h c (by simp)
    simp only [splitAtFirstSpace, if_neg hc]
    rw [ih fun x hx => h x (by simp [hx])]

theorem splitAtFirstSpace_append {l r : List Char} (h : ∀ c ∈ l, c ≠ ' ') :
    splitAtFirstSpace (l ++ ' ' :: r) = some (l, r) := by
  induction l with
  | nil => simp [splitAtFirstSpace]
  | cons c rest ih =>
    have hc : c ≠ ' ' := h c (by simp)
    have ih2 := ih fun x hx => h x (by simp [hx])
    simp [List.cons_append, splitAtFirstSpace, if_neg hc, ih2]

/-- Splitting a keyword, a single space and a remainder recovers the keyword
and the remainder, provided the keyword itself is space-free. -/
theorem splitCmd_append (c r : String) (hc : ∀ ch ∈ c.data, ch ≠ ' ') :
    splitCmd (c ++ " " ++ r) = (c, some r) := by
  have hd : (c ++ " " ++ r).data = c.data ++ ' ' :: r.data := by
    simp [String.data_append]
  unfold splitCmd
  rw [hd, splitAtFirstSpace_append hc]

/-- Splitting a space-free token yields the token and no remainder. -/
theorem splitCmd_of_nospace (s : String) (h : ∀ ch ∈ s.data, ch ≠ ' ') :
    splitCmd s = (s, none) := by
  unfold splitCmd
  rw [splitAtFirstSpace_of_nospace h]

/-! ### Go strconv.Atoi -/

/-- Parses a non-empty all-digit character list into a number, accumulator
style, as Go's decimal scan does. -/
def parseDigitsAux : List Char → Nat → Option Nat
  | [], acc => some acc
  | c :: rest, acc =>
    if c.isDigit then parseDigitsAux rest (acc * 10 + (c.toNat - 48)) else none

/-- Parses a digit string; empty input is a parse error, as in Go. -/
def parseDigits : List Char → Option Nat
  | [] => none
  | cs => parseDigitsAux cs 0

/-- Parses an optionally signed decimal character list, Go `strconv.Atoi`
style: optional sign, then at least one digit and nothing else. -/
def atoiList : List Char → Option Int
  | [] => none
  | c :: rest =>
    if c = '+' then (parseDigits rest).map Int.ofNat
    else if c = '-' then (parseDigits rest).map fun n => -(n : Int)
    else (parseDigits (c :: rest)).map Int.ofNat

/-- Embeds Go `strconv.Atoi`.  Go's int-range overflow error is not modelled;
no claim in this development involves counts near 2^63. -/
def atoi (s : String) : Option Int :=
  atoiList s.data

theorem parseDigitsAux_digits {cs : List Char} {acc n : Nat}
    (h : parseDigitsAux cs acc = some n) : ∀ c ∈ cs, c.isDigit := by
  induction cs generalizing acc with
  | nil => simp
  | cons c rest ih =>
    simp only [parseDigitsAux] at h
    by_cases hc : c.isDigit
    · intro x hx
      rcases List.mem_cons.mp hx with hx | hx
      · exact hx ▸ hc
      · exact ih (by simpa [hc] using h) x hx
    · simp [hc] at h

theorem parseDigits_digits {cs : List Char} {n : Nat}
    (h : parseDigits cs = some n) : ∀ c ∈ cs, c.isDigit := by
  cases cs with
  | nil => simp
  | cons c rest => exact parseDigitsAux_digits (by simpa [parseDigits] using h)

/-- A string accepted by `atoi` contains no space: every character is a digit
or a leading sign. -/
theorem atoi_no_space {s : String} {k : Int} (h : atoi s = some k) :
    ∀ ch ∈ s.data, ch ≠ ' ' := by
  have hdig : ∀ c : Char, c.isDigit → c ≠ ' ' := by
    intro c hc
    intro he
    rw [he] at hc
    simp [Char.isDigit] at hc
  unfold atoi at h
  intro ch hch
  cases hs : s.data with
  | nil => rw [hs] at hch; simp at hch
  | cons c rest =>
    rw [hs] at h hch
    simp only [atoiList] at h
    by_cases hplus : c = '+'
    · subst hplus
      rw [if_pos rfl] at h
      cases hm : parseDigits rest with
      | none => rw [hm] at h; simp at h
      | some m =>
        rcases List.mem_cons.mp hch with hx | hx
        · subst hx; decide
        · exact hdig ch (parseDigits_digits hm ch hx)
    · by_cases hminus : c = '-'
      · subst hminus
        rw [if_neg hplus, if_pos rfl] at h
        cases hm : parseDigits rest with
        | none => rw [hm] at h; simp at h
        | some m =>
          rcases List.mem_cons.mp hch with hx | hx
          · subst hx; decide
          · exact hdig ch (parseDigits_digits hm ch hx)
      · rw [if_neg hplus, if_neg hminus] at h
        cases hm : parseDigits (c :: rest) with
        | none => rw [hm] at h; simp at h
        | some m => exact hdig ch (parseDigits_digits hm ch hch)

/-! ### Message model (package ws) -/

/-- Embeds `ws.MessageType` (`NotDefined | Request | Response`). -/
inductive MessageType where
  | notDefined
  | request
  | response
deriving DecidableEq, Repr

/-- Embeds the `MessageType.String()` method. -/
def MessageType.toString : MessageType → String
  | .notDefined => "Not defined"
  | .request => "Request"
  | .response => "Response"

/-- Embeds `ws.Message` (`Data string; Type MessageType`). -/
structure Message where
  data : String
  type : MessageType
deriving DecidableEq, Repr

/-! ### Executer variants -/

/-- Deep embedding of the command variants the Factory can construct.  In Go
each variant is a struct implementing the `Executer` interface and holding only
its constructor-time parameters; the closed sum below lists exactly those
parameters.  Durations are kept as the parsed seconds count (the Go code
multiplies by `time.Second` when storing them, which is a unit change only). -/
inductive Executer where
  | exit
  | edit (content : String)
  | cmdEdit
  | send (request : String)
  | printMsg (msg : Message)
  | waitForResp (timeoutSec : Int)
  | repeatCmd (times : Int) (sub : Executer)
  | sleepCmd (sec : Int)
  | sequence (subs : List Executer)

/-! ### Factory.Create (package command) -/

/-- Result of `Factory.Create`: the Go function returns an `(Executer, error)`
pair, but the embedding needs a third outcome for a Go runtime panic (which is
not a returned value at all). -/
inductive CreateResult where
  | ok (e : Executer)
  | err (msg : String)
  | crash (msg : String)

/-- Embeds the `command.Factory` struct: its only field is the `MacroRepo`
interface value, modelled as an optional lookup function
(`Get(name, argString) (core.Executer, error)`); `none` is Go's nil. -/
structure Factory where
  mac : Option (String → String → Except String Executer)

set_option linter.unusedVariables false in
/-- Embeds `Factory.Create` from the `command` package, branch by branch in
source order.  Notes kept from the source:
  * the `repeat` branch checks `len(parts) < PartsNumber` a second time where
    `len(repeatParts)` was evidently meant, so the check never fires and
    `repeatParts[1]` is read unguarded; when the sub-command is missing this is
    a Go index-out-of-range panic, embedded as `CreateResult.crash`;
  * the `print` branch's unknown-type error interpolates `parts[0]` (the word
    `print`), not the offending type keyword;
  * the two arms of each Go `err != nil || bound` test are embedded as the
    corresponding `Option` match plus an `if`;
  * the recursive call on the sub-command of `repeat` sits behind a decidable
    length guard that only records why the recursion terminates (a `SplitN`
    remainder is strictly shorter than its input, see `splitCmd_arg_length`);
    the guard's else-branch is unreachable. -/
def Factory.Create (f : Factory) (raw : String) : CreateResult :=
  if raw = "" then .err "empty command"
  else
    match splitCmd raw with
    | (cmd, arg) =>
      if cmd = "exit" then .ok .exit
      else if cmd = "edit" then .ok (.edit (arg.getD ""))
      else if cmd = "editcmd" then .ok .cmdEdit
      else if cmd = "send" then
        match arg with
        | none => .err "empty request"
        | some r => .ok (.send r)
      else if cmd = "print" then
        match arg with
        | none => .err "empty request"
        | some rest =>
          match splitCmd rest with
          | (_, none) => .err ("not enough arguments for print command: " ++ raw)
          | (ty, some msg) =>
            if ty = "Request" then .ok (.printMsg { data := msg, type := .request })
            else if ty = "Response" then .ok (.printMsg { data := msg, type := .response })
            else .err ("invalid message type: " ++ cmd)
      else if cmd = "wait" then
        match arg with
        | none => .ok (.waitForResp 0)
        | some a =>
          match atoi a with
          | none => .err ("invalid timeout: " ++ a)
          | some sec =>
            if sec < 0 then .err ("invalid timeout: " ++ a)
            else .ok (.waitForResp sec)
      else if cmd = "repeat" then
        match arg with
        | none => .err ("not enough arguments for repeat command: " ++ raw)
        | some a =>
          match splitCmd a with
          | (rp0, none) =>
            match atoi rp0 with
            | none => .err ("invalid repeat times: " ++ rp0)
            | some times =>
              if times ≤ 0 then .err ("invalid repeat times: " ++ rp0)
              else .crash "runtime error: index out of range [1] with length 1"
          | (rp0, some sub) =>
            match atoi rp0 with
            | none => .err ("invalid repeat times: " ++ rp0)
            | some times =>
              if times ≤ 0 then .err ("invalid repeat times: " ++ rp0)
              else if hlt : sub.data.length < raw.data.length then
                match f.Create sub with
                | .ok subCommand => .ok (.repeatCmd times subCommand)
                | .err e => .err e
                | .crash p => .crash p
              else .crash "unreachable: a SplitN remainder is strictly shorter than its input"
      else if cmd = "sleep" then
        match arg with
        | none => .err ("not enough arguments for sleep command: " ++ raw)
        | some a =>
          match atoi a with
          | none => .err ("invalid sleep duration: " ++ a)
          | some sec =>
            if sec < 0 then .err ("invalid sleep duration: " ++ a)
            else .ok (.sleepCmd sec)
      else
        match f.mac with
        | some g =>
          match g cmd (arg.getD "") with
          | .ok e => .ok e
          | .error m => .err m
        | none => .err ("unknown command: " ++ cmd)
termination_by raw.data.length
decreasing_by
  exact hlt

/-! ### Execution context and observable events (package cmd, commands.go) -/

/-- Cursor-control escape sequences, as in commands.go. -/
def LineUp : String := "\x1b[1A"

/-- Clears the current terminal line (commands.go constant). -/
def LineClear : String := "\x1b[2K"

/-- Hides the terminal cursor (commands.go constant). -/
def HideCursor : String := "\x1b[?25l"

/-- Shows the terminal cursor (commands.go constant). -/
def ShowCursor : String := "\x1b[?25h"

/-- The two editor capabilities of the ExecutionContext:
`RequestEditor()` and `CmdEditor()`. -/
inductive EditorKind where
  | request
  | cmdLine
deriving DecidableEq, Repr

/-- Observable effects of one `Execute` call: writes to the screen output,
writes to the output file, opening one of the two editors, a transport send,
and a sleep.  `execCmd` marks the start of each step of a command chain. -/
inductive Event where
  | execCmd (e : Executer)
  | screenWrite (s : String)
  | fileWrite (s : String)
  | editorOpen (k : EditorKind)
  | sendReq (req : String)
  | sleepFor (sec : Int)

/-- Embeds the `ExecutionContext` capability bundle of commands.go, reduced to
the observable behaviour of each capability during one `Execute` call:
  * `formatMessage`/`formatForFile`: the `Formater` capability;
  * `hasOutputFile`: whether `OutputFile()` is non-nil;
  * `requestEditor`/`cmdEditor`: the result of `Edit(keyStream, initBuffer)` on
    the `RequestEditor()` and `CmdEditor()` capabilities, as a function of the
    initial buffer;
  * `connSend`: the result of `Connection().Send`;
  * `streamNext`: the next value a read on `Connection().Messages()` would
    yield (`none` when the channel is closed);
  * `timerFirst`: whether in a select race the timer fires before the stream;
  * `macroLookup`: the `Macro()` repository of commands.go, as an optional
    name-to-executer lookup (`Get(name)`). -/
structure ExecCtx where
  formatMessage : Message → Except String String
  formatForFile : Message → Except String String
  hasOutputFile : Bool
  requestEditor : String → Except String String
  cmdEditor : String → Except String String
  connSend : String → Except String Message
  streamNext : Option Message
  timerFirst : Bool
  macroLookup : Option (String → Except String Executer)

/-! ### The legacy CommandFactory (commands.go) -/

/-- Embeds `CommandFactory` from commands.go (the factory used by
`CommandCmdEdit.Execute`): keywords exit, edit, send, wait, else macro lookup.
The wait branch's error interpolates the Go Atoi error value
(`"invalid timeout: %s", err`); the embedding keeps the offending argument
instead, which no claim inspects. -/
def CommandFactory (mac : Option (String → Except String Executer)) (raw : String) :
    Except String Executer :=
  if raw = "" then .error "empty command"
  else
    match splitCmd raw with
    | (cmd, arg) =>
      if cmd = "exit" then .ok .exit
      else if cmd = "edit" then .ok (.edit (arg.getD ""))
      else if cmd = "send" then
        match arg with
        | none => .error "empty request"
        | some r => .ok (.send r)
      else if cmd = "wait" then
        match arg with
        | none => .ok (.waitForResp 0)
        | some a =>
          match atoi a with
          | none => .error ("invalid timeout: " ++ a)
          | some sec =>
            if sec < 0 then .error ("invalid timeout: " ++ a)
            else .ok (.waitForResp sec)
      else
        match mac with
        | some g => g cmd
        | none => .error ("unknown command: " ++ cmd)

/-! ### Execute methods of the command variants (commands.go) -/

/-- Quotes a string as Go's `%q` verb does for the common characters (quote,
backslash, newline, carriage return, tab); rarer control characters keep their
literal form here, which no claim inspects. -/
def goQuoteChar (c : Char) : List Char :=
  if c = '"' then ['\\', '"']
  else if c = '\\' then ['\\', '\\']
  else if c = '\n' then ['\\', 'n']
  else if c = '\r' then ['\\', 'r']
  else if c = '\t' then ['\\', 't']
  else [c]

/-- Quotes a whole string as Go's `%q` verb does (see `goQuoteChar`). -/
def goQuote (s : String) : String :=
  ⟨'"' :: (s.data.flatMap goQuoteChar) ++ ['"']⟩

/-- Embeds `CommandExit.Execute`: always the "interrupted" error. -/
def CommandExit.Execute (_ : ExecCtx) : Except String (Option Executer) × List Event :=
  (.error "interrupted", [])

/-- Embeds `CommandEdit.Execute`: arrow marker, cursor on, request editor with
the seed content, cursor restore; editor error or empty result ends the chain
(propagating the error when there is one), otherwise the successor is
`CommandSend` of the edited text. -/
def CommandEdit.Execute (ctx : ExecCtx) (content : String) :
    Except String (Option Executer) × List Event :=
  let evs := [Event.screenWrite "->\n", Event.screenWrite ShowCursor,
    Event.editorOpen .request, Event.screenWrite (LineUp ++ LineClear),
    Event.screenWrite HideCursor]
  match ctx.requestEditor content with
  | .error e => (.error e, evs)
  | .ok req => if req = "" then (.ok none, evs) else (.ok (some (.send req)), evs)

/-- Embeds `CommandSend.Execute`: sends over the connection; failure wraps the
transport error, success chains to `CommandPrintMsg` of the returned message. -/
def CommandSend.Execute (ctx : ExecCtx) (request : String) :
    Except String (Option Executer) × List Event :=
  match ctx.connSend request with
  | .error e => (.error ("fail to send request: " ++ e), [Event.sendReq request])
  | .ok msg => (.ok (some (.printMsg msg)), [Event.sendReq request])

/-- Embeds `CommandPrintMsg.Execute`: formats the message; on format success
writes the direction arrow and the formatted text to the screen, then, when an
output file is configured, formats for file and appends there; a message type
that is neither Request nor Response is an error raised before anything is
written.  Event lists record exactly the writes the Go code performs up to the
point of return. -/
def CommandPrintMsg.Execute (ctx : ExecCtx) (msg : Message) :
    Except String (Option Executer) × List Event :=
  match ctx.formatMessage msg with
  | .error e =>
    (.error ("fail to format for output file: " ++ e ++ ", data: " ++ goQuote msg.data), [])
  | .ok out =>
    match msg.type with
    | .notDefined =>
      (.error ("unknown message type: " ++ msg.type.toString ++ ", data: " ++ goQuote msg.data),
        [])
    | .request =>
      let evs := [Event.screenWrite "->\n", Event.screenWrite (out ++ "\n")]
      if ctx.hasOutputFile then
        match ctx.formatForFile msg with
        | .error e => (.error ("fail to write to output file: " ++ e), evs)
        | .ok fileOut => (.ok none, evs ++ [Event.fileWrite (fileOut ++ "\n")])
      else (.ok none, evs)
    | .response =>
      let evs := [Event.screenWrite "<-\n", Event.screenWrite (out ++ "\n")]
      if ctx.hasOutputFile then
        match ctx.formatForFile msg with
        | .error e => (.error ("fail to write to output file: " ++ e), evs)
        | .ok fileOut => (.ok none, evs ++ [Event.fileWrite (fileOut ++ "\n")])
      else (.ok none, evs)

/-- Embeds `CommandWaitForResp.Execute`: with a zero timeout, a plain blocking
read on the inbound stream (message chains to `CommandPrintMsg`, closed stream
is the "connection closed" error); with a non-zero timeout, a select race of a
timer against the same read. -/
def CommandWaitForResp.Execute (ctx : ExecCtx) (timeoutSec : Int) :
    Except String (Option Executer) × List Event :=
  if timeoutSec = 0 then
    match ctx.streamNext with
    | some msg => (.ok (some (.printMsg msg)), [])
    | none => (.error "connection closed", [])
  else if ctx.timerFirst then (.error "timeout", [])
  else
    match ctx.streamNext with
    | some msg => (.ok (some (.printMsg msg)), [])
    | none => (.error "connection closed", [])

/-- Embeds `CommandCmdEdit.Execute` exactly as written in commands.go: prompt
and cursor writes, then `exCtx.RequestEditor().Edit(exCtx.Input(), "")` — the
code opens the request editor, not the `CmdEditor()` capability the context
carries — then the captured line goes through `CommandFactory` with the macro
repository; an editor error propagates, a parse error is printed and the chain
ends with no error, a parsed command becomes the successor. -/
def CommandCmdEdit.Execute (ctx : ExecCtx) : Except String (Option Executer) × List Event :=
  let evs := [Event.screenWrite ":", Event.screenWrite ShowCursor,
    Event.editorOpen .request, Event.screenWrite (LineClear ++ "\r"),
    Event.screenWrite HideCursor]
  match ctx.requestEditor "" with
  | .error e => (.error e, evs)
  | .ok rawCmd =>
    match CommandFactory ctx.macroLookup rawCmd with
    | .error e => (.ok none, evs ++ [Event.screenWrite (e ++ "\n")])
    | .ok cmd => (.ok (some cmd), evs)

/-! ### Chain execution

The driver contract of the spec: `Execute` returns a successor or `none` or an
error, and a chain repeatedly executes successors until `none` or an error.
`runChain` is that loop (the inner `for cmd != nil` loop of
`CommandSequence.Execute`); `seqRun` is `CommandSequence.Execute` itself.
`repeatRun` is the body of the Repeat executer.  Modelled from the spec: the
Repeat and Sleep executers of the `command` package are not under src/ (only
the Factory that constructs them is); the spec fixes their behaviour — Repeat
"runs the sub-Executer's full chain `count` times in a row", a sub-chain error
aborts, Sleep blocks for the duration and has no successor.  A fuel parameter
bounds chain length; `fuelErr` marks exhaustion and occurs in no claim. -/

/-- Marks fuel exhaustion of the chain interpreter; distinct from every error
string the embedded code produces. -/
def fuelErr : String := "out of fuel"

mutual

/-- Dispatches one `Execute` call of an executer variant (commands.go for the
variants whose Execute is under src/; Repeat and Sleep modelled from the
spec). -/
def execOnce : Nat → ExecCtx → Executer → Except String (Option Executer) × List Event
  | 0, _, _ => (.error fuelErr, [])
  | Nat.succ fuel, ctx, e =>
    match e with
    | .exit => CommandExit.Execute ctx
    | .edit content => CommandEdit.Execute ctx content
    | .cmdEdit => CommandCmdEdit.Execute ctx
    | .send request => CommandSend.Execute ctx request
    | .printMsg msg => CommandPrintMsg.Execute ctx msg
    | .waitForResp sec => CommandWaitForResp.Execute ctx sec
    | .sleepCmd sec => (.ok none, [Event.sleepFor sec])
    | .repeatCmd times sub => repeatRun fuel ctx times.toNat sub
    | .sequence subs => seqRun fuel ctx subs
termination_by fuel _ _ => (fuel, 0, 0)

/-- Runs a full command chain: execute, then continue with the returned
successor until `none` (chain done) or an error (chain aborted). -/
def runChain : Nat → ExecCtx → Executer → Except String Unit × List Event
  | 0, _, _ => (.error fuelErr, [])
  | Nat.succ fuel, ctx, e =>
    match execOnce (Nat.succ fuel) ctx e with
    | (.error m, evs) => (.error m, Event.execCmd e :: evs)
    | (.ok none, evs) => (.ok (), Event.execCmd e :: evs)
    | (.ok (some next), evs) =>
      match runChain fuel ctx next with
      | (r, evs2) => (r, Event.execCmd e :: (evs ++ evs2))
termination_by fuel _ _ => (fuel, 1, 0)

/-- Runs the sub-executer's full chain `n` times in a row; the first failing
chain aborts.  Modelled from the spec (Repeat's Execute is outside src/). -/
def repeatRun : Nat → ExecCtx → Nat → Executer → Except String (Option Executer) × List Event
  | _, _, 0, _ => (.ok none, [])
  | fuel, ctx, Nat.succ n, sub =>
    match runChain fuel ctx sub with
    | (.ok _, evs) =>
      match repeatRun fuel ctx n sub with
      | (r, evs2) => (r, evs ++ evs2)
    | (.error m, evs) => (.error m, evs)
termination_by fuel _ n _ => (fuel, 2, n)

/-- Embeds `CommandSequence.Execute`: each sub-executer's chain runs to its own
completion before the next starts; any sub-chain error aborts the sequence. -/
def seqRun : Nat → ExecCtx → List Executer → Except String (Option Executer) × List Event
  | _, _, [] => (.ok none, [])
  | fuel, ctx, e :: rest =>
    match runChain fuel ctx e with
    | (.ok _, evs) =>
      match seqRun fuel ctx rest with
      | (r, evs2) => (r, evs ++ evs2)
    | (.error m, evs) => (.error m, evs)
termination_by fuel _ l => (fuel, 2, l.length)

end

/-! ### Macro repository merge (package macro) -/

/-- Stands for `command.Templates`, the compiled macro value stored in the
repository.  Modelled from the spec: the `command.Templates` type is outside
src/; the spec describes a macro template as a named ordered list of raw
command steps.  `Repo.merge` treats these values as opaque. -/
structure Templates where
  commands : List String
deriving DecidableEq, Repr

/-- Embeds `macro.Repo`: a map from macro name to template plus the domain
suffixes.  The Go map is modelled as an association list: lookup is first
match, insertion appends, and the (randomized) Go map iteration order is the
list order. -/
structure Repo where
  macroMap : List (String × Templates)
  domains : List String
deriving DecidableEq, Repr

/-- Iterates the source entries as `Repo.merge`'s loop does: each name already
present in the (grown) target stops the loop with a duplicate error, leaving
every earlier insertion in place; otherwise the entry is inserted. -/
def mergeList : List (String × Templates) → List (String × Templates) →
    List (String × Templates) × Option String
  | acc, [] => (acc, none)
  | acc, (name, cmd) :: rest =>
    if (acc.lookup name).isSome then (acc, some ("duplicate macro: " ++ name))
    else mergeList (acc ++ [(name, cmd)]) rest

/-- Embeds `Repo.merge`: copies the source's macros into the target one by one,
returning a duplicate-name error as soon as a name is already present.  The Go
method mutates the receiver; the embedding returns the receiver's final state
together with the optional error. -/
def Repo.merge (m : Repo) (src : Repo) : Repo × Option String :=
  match mergeList m.macroMap src.macroMap with
  | (mm, e) => ({ m with macroMap := mm }, e)

/-! ### Connection close lifecycle (package ws) -/

/-- Embeds the state of `ws.Connection` that `Close` touches: the atomic
`isClosed` flag, and a count of how many times the underlying transport's
`Close` has been invoked (the Go code holds the transport handle instead; the
count makes "released exactly once" provable). -/
structure Connection where
  isClosed : Bool
  transportCloseCount : Nat
deriving DecidableEq, Repr

/-- Embeds `Connection.Close`: return immediately when already closed,
otherwise set the flag and close the underlying transport. -/
def Connection.Close (c : Connection) : Connection :=
  if c.isClosed then c
  else { isClosed := true, transportCloseCount := c.transportCloseCount + 1 }

/-! ### Helper lemmas for symbolic lines, and sample contexts for witnesses -/

/-- Characterizes `splitCmd` through a data-level decomposition: a line whose
characters are a space-free keyword, a space and a remainder splits into that
keyword and that remainder. -/
theorem splitCmd_eq_of_data {s c r : String} (hd : s.data = c.data ++ ' ' :: r.data)
    (hc : ∀ ch ∈ c.data, ch ≠ ' ') : splitCmd s = (c, some r) := by
  unfold splitCmd
  rw [hd, splitAtFirstSpace_append hc]

/-- A string with non-empty character data is not the empty string. -/
theorem ne_empty_of_data {s : String} (hd : s.data ≠ []) : s ≠ "" := by
  intro he
  subst he
  exact hd rfl

/-- Sample execution context used by witness theorems: a formatter that echoes
the payload, no output file, editors that produce fixed lines, an echoing
transport, one pending inbound message, no timer, no macros. -/
def sampleCtx : ExecCtx where
  formatMessage := fun m => .ok m.data
  formatForFile := fun m => .ok m.data
  hasOutputFile := false
  requestEditor := fun _ => .ok "send hi"
  cmdEditor := fun _ => .ok "exit"
  connSend := fun r => .ok { data := r, type := .request }
  streamNext := some { data := "pong", type := .response }
  timerFirst := false
  macroLookup := none

/-- Probe context for the editcmd command: the two editor capabilities return
different lines, so the executed line tells which editor the code opened. -/
def editorProbeCtx : ExecCtx :=
  { sampleCtx with requestEditor := fun _ => .ok "exit", cmdEditor := fun _ => .ok "send hi" }

/-! ### Claim theorems -/

/-- C1: the line "repeat 3" — the keyword with a count but no sub-command — is
not rejected with a returned error: the repeat branch's second guard re-checks
`len(parts)` instead of `len(repeatParts)`, so `repeatParts[1]` is read out of
range and `Create` ends in a Go index-out-of-range panic, contradicting the
spec's "surfaced as a returned error, never a crash". -/
theorem create_repeat_missing_sub_is_crash :
    (Factory.mk none).Create "repeat 3" =
      .crash "runtime error: index out of range [1] with length 1" := by
  simp [Factory.Create, splitCmd, splitAtFirstSpace, atoi, atoiList, parseDigits,
    parseDigitsAux]

/-- C9: `Close` is idempotent.  The first call marks the connection closed, a
repeated call changes nothing and in particular does not close the underlying
transport a second time, and a first call on an open connection closes the
transport exactly once. -/
theorem connection_close_idempotent (c : Connection) :
    (c.Close).isClosed = true ∧
    c.Close.Close = c.Close ∧
    c.Close.Close.transportCloseCount = c.Close.transportCloseCount ∧
    (c.isClosed = false → c.Close.transportCloseCount = c.transportCloseCount + 1) := by
  unfold Connection.Close
  by_cases h : c.isClosed <;> simp [h]

/-- C9 witness: both conjuncts with a hypothesis evaluated on the open
connection with an untouched transport. -/
theorem connection_close_idempotent_witness :
    (Connection.mk false 0).Close.Close = (Connection.mk false 0).Close ∧
    (Connection.mk false 0).Close.transportCloseCount = 0 + 1 :=
  ⟨(connection_close_idempotent (Connection.mk false 0)).2.1,
    (connection_close_idempotent (Connection.mk false 0)).2.2.2 rfl⟩

/-- C7 counterexample: the line "send " — the keyword followed by the
separating space and an empty request text — is not an error: `SplitN` yields
two parts (the second empty), the `len(parts) == 1` guard does not fire, and
`Create` returns a Send executer with an empty request. -/
theorem send_trailing_space_counterexample :
    (Factory.mk none).Create "send " = .ok (.send "") := by
  simp [Factory.Create, splitCmd, splitAtFirstSpace]

/-- C7 amended: only the bare keyword `send` (no space, so no argument part at
all) is rejected with the empty-request error; every line `send <rest>` — the
remainder may be empty — yields a Send executer carrying exactly the
remainder. -/
theorem send_empty_request_amended (f : Factory) (r : String) :
    f.Create "send" = .err "empty request" ∧
    f.Create ("send " ++ r) = .ok (.send r) := by
  constructor
  · simp [Factory.Create, splitCmd, splitAtFirstSpace]
  · have hd : ("send " ++ r).data = ("send" : String).data ++ ' ' :: r.data := by
      have hlit : ("send " : String).data = ("send" : String).data ++ [' '] := by decide
      simp [String.data_append, hlit]
    have hsplit := splitCmd_eq_of_data hd (by decide)
    have h0 : ("send " ++ r) ≠ "" := ne_empty_of_data (by rw [hd]; simp)
    simp [Factory.Create, hsplit, h0]

/-- C5: `CommandCmdEdit.Execute` reads the captured line from the request
editor, not from the `CmdEditor()` capability: in a context whose request
editor yields "exit" and whose command-line editor yields "send hi", the
successor is the Exit executer parsed from the request editor's line, and the
event trace records the request editor being opened. -/
theorem cmdEdit_opens_request_editor :
    CommandCmdEdit.Execute editorProbeCtx =
      (.ok (some .exit),
        [Event.screenWrite ":", Event.screenWrite ShowCursor, Event.editorOpen .request,
          Event.screenWrite (LineClear ++ "\r"), Event.screenWrite HideCursor]) := by
  simp [CommandCmdEdit.Execute, editorProbeCtx, sampleCtx, CommandFactory, splitCmd,
    splitAtFirstSpace]

/-- C10: when a message's type is neither Request nor Response and the
formatter succeeds, `CommandPrintMsg.Execute` returns no successor and the
unknown-message-type error, and its event trace is empty: neither an arrow
marker nor the formatted message reaches the screen or the file sink. -/
theorem printMsg_unknown_type_no_output (ctx : ExecCtx) (m : Message) (s : String)
    (ht : m.type = .notDefined) (hf : ctx.formatMessage m = .ok s) :
    CommandPrintMsg.Execute ctx m =
      (.error ("unknown message type: Not defined, data: " ++ goQuote m.data), []) := by
  unfold CommandPrintMsg.Execute
  rw [hf, ht]
  simp [MessageType.toString, ht]

/-- C10 witness: the unknown-type branch evaluated on a concrete context and
message. -/
theorem printMsg_unknown_type_no_output_witness :
    CommandPrintMsg.Execute sampleCtx (Message.mk "z" .notDefined) =
      (.error "unknown message type: Not defined, data: \"z\"", []) := by
  have h := printMsg_unknown_type_no_output sampleCtx (Message.mk "z" .notDefined) "z" rfl rfl
  simpa [goQuote, goQuoteChar] using h

/-- C6: `Create "wait 0"` and `Create "wait"` build the same executer — a
WaitForResponse with zero timeout — whose Execute is a plain blocking read on
the inbound stream: a pending message chains to PrintMessage, a closed stream
is the "connection closed" error, the timer race is never entered and a
timeout error is impossible; a negative or non-numeric seconds argument is a
parse error. -/
theorem wait_zero_equals_wait_default :
    (∀ f : Factory, f.Create "wait 0" = .ok (.waitForResp 0)) ∧
    (∀ f : Factory, f.Create "wait" = .ok (.waitForResp 0)) ∧
    (∀ ctx : ExecCtx, CommandWaitForResp.Execute ctx 0 =
      match ctx.streamNext with
      | some msg => (.ok (some (.printMsg msg)), [])
      | none => (.error "connection closed", [])) ∧
    (∀ ctx : ExecCtx, (CommandWaitForResp.Execute ctx 0).1 ≠ .error "timeout") ∧
    (∀ (f : Factory) (a : String) (k : Int),
      atoi a = none ∨ (atoi a = some k ∧ k < 0) →
      f.Create ("wait " ++ a) = .err ("invalid timeout: " ++ a)) := by
  refine ⟨?_, ?_, ?_, ?_, ?_⟩
  · intro f
    simp [Factory.Create, splitCmd, splitAtFirstSpace, atoi, atoiList, parseDigits,
      parseDigitsAux]
  · intro f
    simp [Factory.Create, splitCmd, splitAtFirstSpace]
  · intro ctx
    cases hn : ctx.streamNext <;> simp_all [CommandWaitForResp.Execute]
  · intro ctx
    cases hn : ctx.streamNext <;> simp_all [CommandWaitForResp.Execute]
  · intro f a k hk
    have hd : ("wait " ++ a).data = ("wait" : String).data ++ ' ' :: a.data := by
      have hlit : ("wait " : String).data = ("wait" : String).data ++ [' '] := by decide
      simp [String.data_append, hlit]
    have hsplit := splitCmd_eq_of_data hd (by decide)
    have h0 : ("wait " ++ a) ≠ "" := ne_empty_of_data (by rw [hd]; simp)
    rcases hk with hk | ⟨hk, hneg⟩
    · simp [Factory.Create, hsplit, h0, hk]
    · simp [Factory.Create, hsplit, h0, hk, hneg]

/-- C6 witness: both command forms, the blocking read on the sample context
with one pending message, the impossibility of a timeout result, and the
negative-argument parse error, all evaluated. -/
theorem wait_zero_equals_wait_default_witness :
    (Factory.mk none).Create "wait 0" = .ok (.waitForResp 0) ∧
    (Factory.mk none).Create "wait" = .ok (.waitForResp 0) ∧
    CommandWaitForResp.Execute sampleCtx 0 =
      (.ok (some (.printMsg (Message.mk "pong" .response))), []) ∧
    (CommandWaitForResp.Execute sampleCtx 0).1 ≠ .error "timeout" ∧
    (Factory.mk none).Create ("wait " ++ "-1") = .err ("invalid timeout: " ++ "-1") := by
  refine ⟨wait_zero_equals_wait_default.1 _, wait_zero_equals_wait_default.2.1 _, ?_, ?_, ?_⟩
  · have h := wait_zero_equals_wait_default.2.2.1 sampleCtx
    simpa [sampleCtx] using h
  · exact wait_zero_equals_wait_default.2.2.2.1 sampleCtx
  · exact wait_zero_equals_wait_default.2.2.2.2 (Factory.mk none) "-1" (-1)
      (Or.inr ⟨by decide, by decide⟩)

/-- C8: `print Response <json>` builds a PrintMessage executer wrapping a
Response-typed message with exactly the given payload; `print Bogus x` is the
invalid-message-type error (whose text interpolates `parts[0]`, the word
"print", a quirk kept from the source); in general any unknown type keyword is
that error, a type keyword without a message argument is the
not-enough-arguments error, and the bare keyword is the empty-request
error. -/
theorem print_parse_correct :
    (∀ f : Factory, f.Create "print Response \x7b\"a\":1\x7d" =
      .ok (.printMsg (Message.mk "\x7b\"a\":1\x7d" .response))) ∧
    (∀ f : Factory, f.Create "print Bogus x" = .err "invalid message type: print") ∧
    (∀ (f : Factory) (t m : String), (∀ ch ∈ t.data, ch ≠ ' ') →
      t ≠ "Request" → t ≠ "Response" →
      f.Create ("print " ++ (t ++ " " ++ m)) = .err "invalid message type: print") ∧
    (∀ (f : Factory) (t : String), (∀ ch ∈ t.data, ch ≠ ' ') →
      f.Create ("print " ++ t) =
        .err ("not enough arguments for print command: " ++ ("print " ++ t))) ∧
    (∀ f : Factory, f.Create "print" = .err "empty request") := by
  have hlit : ("print " : String).data = ("print" : String).data ++ [' '] := by decide
  refine ⟨?_, ?_, ?_, ?_, ?_⟩
  · intro f
    simp [Factory.Create, splitCmd, splitAtFirstSpace]
  · intro f
    simp [Factory.Create, splitCmd, splitAtFirstSpace]
  · intro f t m ht h1 h2
    have hd : ("print " ++ (t ++ " " ++ m)).data =
        ("print" : String).data ++ ' ' :: (t ++ " " ++ m).data := by
      simp [String.data_append, hlit]
    have hsplit := splitCmd_eq_of_data hd (by decide)
    have h0 : ("print " ++ (t ++ " " ++ m)) ≠ "" := ne_empty_of_data (by rw [hd]; simp)
    have hd2 : (t ++ " " ++ m).data = t.data ++ ' ' :: m.data := by
      simp [String.data_append]
    have hsplit2 := splitCmd_eq_of_data hd2 ht
    simp [Factory.Create, hsplit, hsplit2, h0, h1, h2]
  · intro f t ht
    have hd : ("print " ++ t).data = ("print" : String).data ++ ' ' :: t.data := by
      simp [String.data_append, hlit]
    have hsplit := splitCmd_eq_of_data hd (by decide)
    have h0 : ("print " ++ t) ≠ "" := ne_empty_of_data (by rw [hd]; simp)
    have hsplit2 := splitCmd_of_nospace t ht
    simp [Factory.Create, hsplit, hsplit2, h0]
  · intro f
    simp [Factory.Create, splitCmd, splitAtFirstSpace]

/-- C8 witness: the two concrete scenarios, plus the general unknown-type and
missing-message cases evaluated at "print Bogus x" (through the general
conjunct) and "print Request". -/
theorem print_parse_correct_witness :
    (Factory.mk none).Create "print Response \x7b\"a\":1\x7d" =
      .ok (.printMsg (Message.mk "\x7b\"a\":1\x7d" .response)) ∧
    (Factory.mk none).Create "print Bogus x" = .err "invalid message type: print" ∧
    (Factory.mk none).Create ("print " ++ ("Bogus" ++ " " ++ "x")) =
      .err "invalid message type: print" ∧
    (Factory.mk none).Create ("print " ++ "Request") =
      .err ("not enough arguments for print command: " ++ ("print " ++ "Request")) ∧
    (Factory.mk none).Create "print" = .err "empty request" :=
  ⟨print_parse_correct.1 _, print_parse_correct.2.1 _,
    print_parse_correct.2.2.1 (Factory.mk none) "Bogus" "x" (by decide) (by decide) (by decide),
    print_parse_correct.2.2.2.1 (Factory.mk none) "Request" (by decide),
    print_parse_correct.2.2.2.2 _⟩

/-- Association-list lookup ignores appended entries when the key is already
present on the left. -/
theorem lookup_append_left {l l2 : List (String × Templates)} {n : String}
    (h : (l.lookup n).isSome) : ((l ++ l2).lookup n) = l.lookup n := by
  induction l with
  | nil => simp [List.lookup] at h
  | cons p rest ih =>
    obtain ⟨k, v⟩ := p
    by_cases hk : n == k
    · simp [List.lookup, hk]
    · simp only [List.lookup, hk, List.cons_append] at h ⊢
      exact ih h

/-- The merge loop aborts with a duplicate-name error whenever some source
name is already present in the target, no matter how many entries were copied
first. -/
theorem mergeList_overlap {src acc : List (String × Templates)} {n : String}
    (ha : (acc.lookup n).isSome) (hs : (src.lookup n).isSome) :
    ∃ d, (mergeList acc src).2 = some ("duplicate macro: " ++ d) := by
  induction src generalizing acc with
  | nil => simp [List.lookup] at hs
  | cons p rest ih =>
    obtain ⟨k, v⟩ := p
    by_cases hdup : (acc.lookup k).isSome
    · exact ⟨k, by simp [mergeList, hdup]⟩
    · have hnk : ¬(n == k) := by
        intro hb
        have hek : n = k := eq_of_beq hb
        subst hek
        exact hdup ha
      have hs2 : (rest.lookup n).isSome := by
        simpa [List.lookup, hnk] using hs
      have ha2 : ((acc ++ [(k, v)]).lookup n).isSome := by
        rw [lookup_append_left ha]
        exact ha
      have := ih ha2 hs2
      simpa [mergeList, hdup] using this

/-- Concrete target and source repositories for the merge claims: the target
holds macro b, the source holds macros a and b. -/
def repoTargetB : Repo :=
  { macroMap := [("b", { commands := ["wait"] })], domains := [] }

/-- Concrete merge source holding macros a and b (b collides with the
target). -/
def repoSourceAB : Repo :=
  { macroMap := [("a", { commands := ["exit"] }), ("b", { commands := ["send x"] })],
    domains := [] }

/-- C2 counterexample: merging a source whose names overlap the target's does
fail with a duplicate-name error, but the entries iterated before the
duplicate are already inserted: after the failed merge the target suddenly
resolves macro a, which it did not before — a partially merged repository. -/
theorem merge_partial_state_counterexample :
    (repoTargetB.merge repoSourceAB).2 = some "duplicate macro: b" ∧
    (repoTargetB.merge repoSourceAB).1.macroMap.lookup "a" =
      some { commands := ["exit"] } ∧
    repoTargetB.macroMap.lookup "a" = none := by
  refine ⟨?_, ?_, ?_⟩ <;> rfl

/-- C2 amended: merging repositories with overlapping name sets fails with a
duplicate-name error, but the source entries iterated before the first
duplicate are already inserted into the target, so a failed merge can leave
the target partially merged (here: the failed merge leaves macros b and a in
the target). -/
theorem merge_overlap_duplicate_error :
    (∀ (m src : Repo) (n : String),
      (m.macroMap.lookup n).isSome → (src.macroMap.lookup n).isSome →
      ∃ d, (m.merge src).2 = some ("duplicate macro: " ++ d)) ∧
    (repoTargetB.merge repoSourceAB).1.macroMap =
      [("b", { commands := ["wait"] }), ("a", { commands := ["exit"] })] := by
  constructor
  · intro m src n hm hs
    have h := mergeList_overlap hm hs
    unfold Repo.merge
    obtain ⟨d, hd⟩ := h
    exact ⟨d, by simp [hd]⟩
  · rfl

/-- C2 witness: the overlap hypothesis discharged on the concrete target and
source, at the shared name b. -/
theorem merge_overlap_duplicate_error_witness :
    ∃ d, (repoTargetB.merge repoSourceAB).2 = some ("duplicate macro: " ++ d) :=
  merge_overlap_duplicate_error.1 repoTargetB repoSourceAB "b" (by decide) (by decide)

/-- C4: parsing and running repeat.  For a line `repeat N <cmd>` whose count
token parses as a positive integer, `Create` parses the remainder recursively
and wraps the result in a Repeat executer of that count (a sub-command parse
failure — or panic — propagates unchanged); a non-numeric or non-positive
count is rejected at parse time with the invalid-repeat-times error; and the
Repeat executer runs the sub-command's full chain exactly N times in order:
its event trace is N concatenated copies of the sub-chain's trace. -/
theorem repeat_parse_and_run :
    (∀ (f : Factory) (s cmd : String) (k : Int), atoi s = some k → 0 < k →
      f.Create ("repeat " ++ (s ++ " " ++ cmd)) =
        (match f.Create cmd with
          | .ok sub => .ok (.repeatCmd k sub)
          | .err e => .err e
          | .crash p => .crash p)) ∧
    (∀ (f : Factory) (s rest : String), (∀ ch ∈ s.data, ch ≠ ' ') → atoi s = none →
      f.Create ("repeat " ++ (s ++ " " ++ rest)) = .err ("invalid repeat times: " ++ s)) ∧
    (∀ (f : Factory) (s rest : String) (k : Int), atoi s = some k → k ≤ 0 →
      f.Create ("repeat " ++ (s ++ " " ++ rest)) = .err ("invalid repeat times: " ++ s)) ∧
    (∀ (fuel : Nat) (ctx : ExecCtx) (sub : Executer) (t : List Event) (n : Int),
      runChain fuel ctx sub = (.ok (), t) →
      execOnce (fuel + 1) ctx (.repeatCmd n sub) =
        (.ok none, (List.replicate n.toNat t).flatten)) := by
  have hlit : ("repeat " : String).data = ("repeat" : String).data ++ [' '] := by decide
  refine ⟨?_, ?_, ?_, ?_⟩
  · intro f s cmd k hk hkpos
    have hs := atoi_no_space hk
    have hd : ("repeat " ++ (s ++ " " ++ cmd)).data =
        ("repeat" : String).data ++ ' ' :: (s ++ " " ++ cmd).data := by
      simp [String.data_append, hlit]
    have hsplit := splitCmd_eq_of_data hd (by decide)
    have h0 : ("repeat " ++ (s ++ " " ++ cmd)) ≠ "" := ne_empty_of_data (by rw [hd]; simp)
    have hd2 : (s ++ " " ++ cmd).data = s.data ++ ' ' :: cmd.data := by
      simp [String.data_append]
    have hsplit2 := splitCmd_eq_of_data hd2 hs
    have hle : ¬(k ≤ 0) := by omega
    have hlen : cmd.data.length < ("repeat " ++ (s ++ " " ++ cmd)).data.length := by
      have l1 := splitCmd_arg_length hsplit
      have l2 := splitCmd_arg_length hsplit2
      omega
    rw [Factory.Create.eq_def]
    simp [hsplit, hsplit2, h0, hk, hle, hlen]
    intro hcontra
    exact absurd hcontra (by omega)
  · intro f s rest hs hk
    have hd : ("repeat " ++ (s ++ " " ++ rest)).data =
        ("repeat" : String).data ++ ' ' :: (s ++ " " ++ rest).data := by
      simp [String.data_append, hlit]
    have hsplit := splitCmd_eq_of_data hd (by decide)
    have h0 : ("repeat " ++ (s ++ " " ++ rest)) ≠ "" := ne_empty_of_data (by rw [hd]; simp)
    have hd2 : (s ++ " " ++ rest).data = s.data ++ ' ' :: rest.data := by
      simp [String.data_append]
    have hsplit2 := splitCmd_eq_of_data hd2 hs
    rw [Factory.Create.eq_def]
    simp [hsplit, hsplit2, h0, hk]
  · intro f s rest k hk hkle
    have hs := atoi_no_space hk
    have hd : ("repeat " ++ (s ++ " " ++ rest)).data =
        ("repeat" : String).data ++ ' ' :: (s ++ " " ++ rest).data := by
      simp [String.data_append, hlit]
    have hsplit := splitCmd_eq_of_data hd (by decide)
    have h0 : ("repeat " ++ (s ++ " " ++ rest)) ≠ "" := ne_empty_of_data (by rw [hd]; simp)
    have hd2 : (s ++ " " ++ rest).data = s.data ++ ' ' :: rest.data := by
      simp [String.data_append]
    have hsplit2 := splitCmd_eq_of_data hd2 hs
    rw [Factory.Create.eq_def]
    simp [hsplit, hsplit2, h0, hk, hkle]
  · intro fuel ctx sub t n hsub
    have hrep : ∀ m : Nat, repeatRun fuel ctx m sub = (.ok none, (List.replicate m t).flatten) := by
      intro m
      induction m with
      | zero => simp [repeatRun]
      | succ m ih => simp [repeatRun, hsub, ih, List.replicate_succ]
    simpa [execOnce] using hrep n.toNat

/-- C4 witness: a positive count wrapping a parsed sub-command, a zero and a
non-numeric count rejected, and the Repeat executer of count 2 over a sleep
command producing exactly two copies of the sub-chain trace. -/
theorem repeat_parse_and_run_witness :
    (Factory.mk none).Create ("repeat " ++ ("2" ++ " " ++ "sleep 1")) =
      .ok (.repeatCmd 2 (.sleepCmd 1)) ∧
    (Factory.mk none).Create ("repeat " ++ ("0" ++ " " ++ "exit")) =
      .err ("invalid repeat times: " ++ "0") ∧
    (Factory.mk none).Create ("repeat " ++ ("abc" ++ " " ++ "exit")) =
      .err ("invalid repeat times: " ++ "abc") ∧
    execOnce 2 sampleCtx (.repeatCmd 2 (.sleepCmd 1)) =
      (.ok none,
        (List.replicate 2 [Event.execCmd (.sleepCmd 1), Event.sleepFor 1]).flatten) := by
  refine ⟨?_, ?_, ?_, ?_⟩
  · have h := repeat_parse_and_run.1 (Factory.mk none) "2" "sleep 1" 2 (by decide) (by decide)
    rw [h]
    simp [Factory.Create, splitCmd, splitAtFirstSpace, atoi, atoiList, parseDigits,
      parseDigitsAux]
  · exact repeat_parse_and_run.2.2.1 (Factory.mk none) "0" "exit" 0 (by decide) (by decide)
  · exact repeat_parse_and_run.2.1 (Factory.mk none) "abc" "exit" (by decide) (by decide)
  · have hsub : runChain 1 sampleCtx (.sleepCmd 1) =
        (.ok (), [Event.execCmd (.sleepCmd 1), Event.sleepFor 1]) := by
      simp [runChain, execOnce]
    have h := repeat_parse_and_run.2.2.2 1 sampleCtx (.sleepCmd 1)
      [Event.execCmd (.sleepCmd 1), Event.sleepFor 1] 2 hsub
    simpa using h
